import Mathlib

/-!
# Shallow embedding of `src/speech_recognition/whisper_processor.py`

The repository wraps a Whisper speech-recognition model behind a
dispatcher (`WhisperProcessor`): callers enqueue recognition requests on a
thread-safe FIFO queue, a dedicated worker thread drains the queue, runs
the blocking inference call, and schedules the caller's callback back onto
the caller's event loop.

The embedding below models:
* Python truthiness of `None`-able values by `Option` (`none` is falsy);
* the Whisper model backend as `Option WhisperModel`, where a
  `WhisperModel` maps the exact keyword arguments of
  `model.transcribe(...)` (an `EngineCall`) to either a raw result or a
  raised exception (`Except String RawResult`);
* result dictionaries (`{"text": ..., "error": ...}`) as a record of
  `Option` fields, so that presence/absence of keys is expressible;
* the worker thread as a function draining a finite list of poll results
  (`queue.get` either times out empty, returns the sentinel `None`, or
  returns a queued task), producing a trace of observable events;
* the five-second `future.result(timeout=5.0)` wait as a delivery oracle
  receiving the timeout constant and returning success or failure.
-/

namespace WhisperSDK

/-- Mono PCM audio samples, opaque to the dispatcher (only passed through
to the model). -/
abbrev Audio := List Int

/-- Python `str.isspace`-style whitespace characters stripped by
`str.strip()` (the ASCII whitespace set). -/
def isPySpace (c : Char) : Bool :=
  c = ' ' || c = '\t' || c = '\n' || c = '\r' || c = '\x0b' || c = '\x0c'

/-- `str.strip()` on the underlying character list: remove leading and
trailing whitespace. -/
def stripList (l : List Char) : List Char :=
  ((l.dropWhile isPySpace).reverse.dropWhile isPySpace).reverse

/-- Python `str.strip()`. -/
def pyStrip (s : String) : String :=
  ⟨stripList s.data⟩

/-- A raw segment as returned by `model.transcribe` (`seg["start"]`,
`seg["end"]`, `seg["text"]`). The offsets are only passed through, never
computed with, so an integer stands in for the numeric type. -/
structure RawSegment where
  seg_start : Int
  seg_end : Int
  text : String
deriving DecidableEq, Repr

/-- A raw transcription result as returned by `model.transcribe`:
`result["text"]`, `result["language"]`, `result["segments"]`. -/
structure RawResult where
  text : String
  language : String
  segments : List RawSegment
deriving DecidableEq, Repr

/-- The exact argument set of the
`WhisperProcessor._whisper_model.transcribe(...)` invocation in
`_recognize_audio`, including every fixed keyword argument.  The float
constants of the source are represented as rationals. -/
structure EngineCall where
  audio : Audio
  language : Option String
  initial_prompt : Option String
  fp16 : Bool
  verbose : Bool
  no_speech_threshold : ℚ
  condition_on_previous_text : Bool
  compression_ratio_threshold : ℚ
  patience : ℚ
  beam_size : ℕ
  temperature : ℚ
deriving DecidableEq, Repr

/-- Build the `transcribe` invocation of `_recognize_audio` for a given
audio buffer, current language and prompt: all other arguments are the
fixed constants of the source. -/
def mkEngineCall (audio_data : Audio) (language : Option String)
    (prompt : Option String) : EngineCall :=
  { audio := audio_data
    language := language
    initial_prompt := prompt
    fp16 := false
    verbose := false
    no_speech_threshold := 5 / 100
    condition_on_previous_text := false
    compression_ratio_threshold := 24 / 10
    patience := 1
    beam_size := 5
    temperature := 0 }

/-- The model backend: given the full invocation, either return a raw
result or raise (an exception message).  `whisper.load_model` yields such
a behaviour; a failed load is `none` at the `Option WhisperModel` level. -/
def WhisperModel := EngineCall → Except String RawResult

/-- A delivered segment dictionary
`{"start": ..., "end": ..., "text": ...}`. -/
structure Segment where
  seg_start : Int
  seg_end : Int
  text : String
deriving DecidableEq, Repr

/-- A result dictionary handed to the callback.  Each field models the
presence (`some`) or absence (`none`) of the corresponding key in the
Python dict, so "a payload with only an error key" is expressible. -/
structure Payload where
  text : Option String
  language : Option String
  segments : Option (List Segment)
  error : Option String
deriving DecidableEq, Repr

/-- The failure payload `{"error": msg}`. -/
def errorPayload (msg : String) : Payload :=
  { text := none, language := none, segments := none, error := some msg }

/-- The per-segment dictionary built by `_recognize_audio`:
`{"start": seg["start"], "end": seg["end"], "text": seg["text"].strip()}`. -/
def stripSegment (seg : RawSegment) : Segment :=
  { seg_start := seg.seg_start, seg_end := seg.seg_end
    text := pyStrip seg.text }

/-- The success payload built by `_recognize_audio` from the raw model
result: stripped top-level text, detected language, and the segment list
mapped in order with stripped per-segment text. -/
def successPayload (r : RawResult) : Payload :=
  { text := some (pyStrip r.text)
    language := some r.language
    segments := some (r.segments.map stripSegment)
    error := none }

/-- `WhisperProcessor._recognize_audio`, instrumented with the list of
model invocations it performs (empty when the model is unavailable, a
singleton otherwise).  `model` is the class attribute
`WhisperProcessor._whisper_model`; `language` is `self._language` read at
call time.  The `try`/`except` of the source is the `Except` branch: a
raised exception becomes `{"error": str(e)}`. -/
def recognize_audio_traced (model : Option WhisperModel)
    (language : Option String) (audio_data : Audio)
    (prompt : Option String) : Payload × List EngineCall :=
  match model with
  | none => (errorPayload "Whisper model not available", [])
  | some m =>
    let call := mkEngineCall audio_data language prompt
    match m call with
    | .error e => (errorPayload e, [call])
    | .ok r => (successPayload r, [call])

/-- `WhisperProcessor._recognize_audio`: the payload it returns (total:
every internal exception is converted to a failure payload). -/
def recognize_audio (model : Option WhisperModel) (language : Option String)
    (audio_data : Audio) (prompt : Option String) : Payload :=
  (recognize_audio_traced model language audio_data prompt).1

/-- The tuple
`(audio_data, session_id, speech_id, callback, running_loop, prompt)` put
on `self._recognition_queue` by `recognize_async` and unpacked by
`_worker`.  The callback and event-loop handle are opaque identifiers;
`none` models a falsy (absent) callback or loop. -/
structure Task where
  audio_data : Audio
  session_id : String
  speech_id : ℕ
  callback : Option ℕ
  running_loop : Option ℕ
  prompt : Option String
deriving DecidableEq, Repr

/-- The dispatcher state: the FIFO recognition queue (front at the head;
`none` is the shutdown sentinel) and the mutable `self._language`
attribute.  The worker thread itself is modelled separately by
`workerRun`, one per instance. -/
structure WhisperProcessor where
  recognition_queue : List (Option Task)
  language : Option String
deriving DecidableEq, Repr

namespace WhisperProcessor

/-- `WhisperProcessor.is_model_loaded`: `cls._whisper_model is not None`. -/
def is_model_loaded (model : Option WhisperModel) : Bool :=
  model.isSome

/-- `WhisperProcessor.__init__`: empty queue, worker thread started,
`self._language = "en"`. -/
def init : WhisperProcessor :=
  { recognition_queue := [], language := some "en" }

/-- `WhisperProcessor.create`: the guarded factory
`WhisperProcessor() if cls._whisper_model else None`.  A present model
object is truthy, a failed load (`None`) is falsy, so the guard is
`Option.isSome`. -/
def create (model : Option WhisperModel) : Option WhisperProcessor :=
  if model.isSome then some init else none

/-- The `language` property setter: an empty string is turned into `None`
(automatic detection) before being stored in `self._language`. -/
def set_language (p : WhisperProcessor) (value : Option String) :
    WhisperProcessor :=
  { p with language := if value = some "" then none else value }

/-- `WhisperProcessor.recognize_async`: build the request tuple and append
it to the FIFO queue; never blocks, returns nothing. -/
def recognize_async (p : WhisperProcessor) (audio_data : Audio)
    (session_id : String) (speech_id : ℕ) (callback : Option ℕ)
    (running_loop : Option ℕ) (prompt : Option String := none) :
    WhisperProcessor :=
  { p with recognition_queue := p.recognition_queue ++
      [some { audio_data := audio_data, session_id := session_id
              speech_id := speech_id, callback := callback
              running_loop := running_loop, prompt := prompt }] }

end WhisperProcessor

/-- Observable events of one worker iteration:
* `engineCall`: the model backend was invoked with these arguments;
* `scheduled`: `asyncio.run_coroutine_threadsafe(callback(result,
  session_id, speech_id), running_loop)` was issued;
* `logError`: `logger.error(msg)` was emitted. -/
inductive Event where
  | engineCall (call : EngineCall)
  | scheduled (callback running_loop : ℕ) (result : Payload)
      (session_id : String) (speech_id : ℕ)
  | logError (msg : String)
deriving DecidableEq, Repr

/-- The timeout of `future.result(timeout=5.0)` in `_worker`: the fixed
bound, in seconds, the worker waits for a scheduled callback. -/
def FUTURE_RESULT_TIMEOUT : ℚ := 5

/-- Outcome of `future.result(timeout, ...)`: either the scheduled
coroutine completed in time, or the wait raised (timeout or exception),
carrying the exception message. -/
inductive DeliveryOutcome where
  | ok
  | failed (msg : String)
deriving DecidableEq, Repr

/-- Environment oracle for callback delivery: given the scheduled task,
the payload and the timeout passed to `future.result`, decide how the
wait ends. -/
def DeliveryOracle := Task → Payload → ℚ → DeliveryOutcome

/-- One `_worker` iteration body for a dequeued task: run
`_recognize_audio` (with the dispatcher's current language), then, iff
both the callback and the loop handle are truthy, schedule the callback
and wait on the future with the 5-second timeout, logging
`"Failed to send recognition result: ..."` when the wait fails.  Returns
the events of the iteration. -/
def processTask (model : Option WhisperModel) (language : Option String)
    (deliver : DeliveryOracle) (t : Task) : List Event :=
  let rc := recognize_audio_traced model language t.audio_data t.prompt
  let engineEvents := rc.2.map Event.engineCall
  match t.callback, t.running_loop with
  | some cb, some lp =>
    match deliver t rc.1 FUTURE_RESULT_TIMEOUT with
    | .ok => engineEvents ++
        [Event.scheduled cb lp rc.1 t.session_id t.speech_id]
    | .failed msg => engineEvents ++
        [Event.scheduled cb lp rc.1 t.session_id t.speech_id,
         Event.logError ("Failed to send recognition result: " ++ msg)]
  | _, _ => engineEvents

/-- The result of one `queue.get(timeout=1)` poll: the one-second timeout
expired with no item (`queue.Empty`), or an item was dequeued (`none` is
the shutdown sentinel). -/
inductive PollResult where
  | empty
  | item (i : Option Task)
deriving DecidableEq, Repr

/-- The worker thread's terminal state over a finite observation window:
still polling (`Running`) or exited via the sentinel (`Stopped`). -/
inductive WorkerPhase where
  | Running
  | Stopped
deriving DecidableEq, Repr

/-- `WhisperProcessor._worker`: the `while True` loop, run over a finite
sequence of poll results.  `queue.Empty` continues the loop; the sentinel
`None` breaks out; any other item is processed by the iteration body,
whose every exception path is caught at iteration level (modelled by the
totality of `processTask`), after which the loop continues. -/
def workerRun (model : Option WhisperModel) (language : Option String)
    (deliver : DeliveryOracle) :
    List PollResult → List Event × WorkerPhase
  | [] => ([], .Running)
  | .empty :: rest => workerRun model language deliver rest
  | .item none :: _ => ([], .Stopped)
  | .item (some t) :: rest =>
    (processTask model language deliver t ++
       (workerRun model language deliver rest).1,
     (workerRun model language deliver rest).2)

/-- The engine invocations recorded in a worker trace, in order. -/
def engineCalls (trace : List Event) : List EngineCall :=
  trace.filterMap fun e =>
    match e with
    | .engineCall c => some c
    | _ => none

/-- The callback schedulings recorded in a worker trace for a given
correlation pair, in order. -/
def scheduledFor (trace : List Event) (session_id : String)
    (speech_id : ℕ) : List Payload :=
  trace.filterMap fun e =>
    match e with
    | .scheduled _ _ result sid spid =>
        if sid = session_id ∧ spid = speech_id then some result else none
    | _ => none

/-- A string with no leading and no trailing whitespace character. -/
def noEdgeSpace (s : String) : Bool :=
  (match s.data.head? with
   | none => true
   | some c => !isPySpace c) &&
  (match s.data.getLast? with
   | none => true
   | some c => !isPySpace c)

/-! ## Helper lemmas -/

theorem dropWhile_head?_false (p : Char → Bool) :
    ∀ (l : List Char) (c : Char), (l.dropWhile p).head? = some c →
      p c = false := by
  intro l
  induction l with
  | nil => intro c h; simp [List.dropWhile] at h
  | cons a l ih =>
    intro c h
    by_cases hp : p a
    · rw [List.dropWhile_cons_of_pos hp] at h
      exact ih c h
    · rw [List.dropWhile_cons_of_neg hp] at h
      simp at h
      rw [← h]
      simpa using hp

/-- `stripList` yields a prefix of the leading-whitespace-stripped list. -/
theorem stripList_append_eq (l : List Char) :
    ∃ t, stripList l ++ t = l.dropWhile isPySpace := by
  obtain ⟨t, ht⟩ := List.dropWhile_suffix (l := (l.dropWhile isPySpace).reverse)
    (p := isPySpace)
  refine ⟨t.reverse, ?_⟩
  have := congrArg List.reverse ht
  simpa [stripList] using this

theorem stripList_head?_false (l : List Char) (c : Char)
    (h : (stripList l).head? = some c) : isPySpace c = false := by
  obtain ⟨t, ht⟩ := stripList_append_eq l
  have hd : (l.dropWhile isPySpace).head? = some c := by
    rw [← ht]
    cases hsl : stripList l with
    | nil => rw [hsl] at h; simp at h
    | cons a s =>
      rw [hsl] at h
      simp at h
      simp [h]
  exact dropWhile_head?_false isPySpace l c hd

theorem stripList_getLast?_false (l : List Char) (c : Char)
    (h : (stripList l).getLast? = some c) : isPySpace c = false := by
  have : ((l.dropWhile isPySpace).reverse.dropWhile isPySpace).head? =
      some c := by
    rw [← List.getLast?_reverse]
    exact h
  exact dropWhile_head?_false isPySpace _ c this

/-- `str.strip()` output never starts or ends with whitespace. -/
theorem noEdgeSpace_pyStrip (s : String) : noEdgeSpace (pyStrip s) = true := by
  unfold noEdgeSpace pyStrip
  apply Bool.and_eq_true_iff.mpr
  constructor
  · cases h : (stripList s.data).head? with
    | none => simp
    | some c => simp [stripList_head?_false s.data c h]
  · cases h : (stripList s.data).getLast? with
    | none => simp
    | some c => simp [stripList_getLast?_false s.data c h]

/-- Engine-call traces concatenate over trace concatenation. -/
theorem engineCalls_append (a b : List Event) :
    engineCalls (a ++ b) = engineCalls a ++ engineCalls b := by
  simp [engineCalls]

/-- With the model available, one iteration invokes the engine exactly
once, with the captured audio and prompt and the current language. -/
theorem engineCalls_processTask (wm : WhisperModel) (language : Option String)
    (deliver : DeliveryOracle) (t : Task) :
    engineCalls (processTask (some wm) language deliver t) =
      [mkEngineCall t.audio_data language t.prompt] := by
  unfold processTask recognize_audio_traced
  cases hm : wm (mkEngineCall t.audio_data language t.prompt) with
  | error e =>
    cases hcb : t.callback with
    | none => simp [hm, engineCalls]
    | some cb =>
      cases hlp : t.running_loop with
      | none => simp [hm, engineCalls]
      | some lp =>
        cases hd : deliver t (errorPayload e) FUTURE_RESULT_TIMEOUT <;>
          simp [hm, hd, engineCalls]
  | ok r =>
    cases hcb : t.callback with
    | none => simp [hm, engineCalls]
    | some cb =>
      cases hlp : t.running_loop with
      | none => simp [hm, engineCalls]
      | some lp =>
        cases hd : deliver t (successPayload r) FUTURE_RESULT_TIMEOUT <;>
          simp [hm, hd, engineCalls]

/-! ## Concrete instances for counterexamples and witnesses -/

/-- A demonstration model backend: reports the requested language (or
that it auto-detected one) and returns fixed text with surrounding
whitespace. -/
def demoModel : WhisperModel := fun c =>
  .ok { text := " hi ", language := c.language.getD "auto-detected"
        segments := [{ seg_start := 0, seg_end := 1, text := " a b " }] }

/-- The raw result `demoModel` yields when asked for English. -/
def demoRawEn : RawResult :=
  { text := " hi ", language := "en"
    segments := [{ seg_start := 0, seg_end := 1, text := " a b " }] }

/-- A model backend that always raises. -/
def failingModel : WhisperModel := fun _ => .error "boom"

/-- A delivery oracle whose waits always succeed. -/
def deliverAlwaysOk : DeliveryOracle := fun _ _ _ => .ok

/-- A delivery oracle whose waits always time out. -/
def deliverAlwaysTimeout : DeliveryOracle := fun _ _ _ => .failed "timed out"

/-- A concrete request task with a callback and an event loop. -/
def demoTask : Task :=
  { audio_data := [1], session_id := "s1", speech_id := 1
    callback := some 0, running_loop := some 0, prompt := none }

/-- `demoTask` without a completion callback. -/
def demoTaskNoCb : Task :=
  { audio_data := [1], session_id := "s1", speech_id := 1
    callback := none, running_loop := some 0, prompt := none }

/-- A fresh dispatcher after one submission (the arguments of
`demoTask`). -/
def demoSubmitted : WhisperProcessor :=
  WhisperProcessor.init.recognize_async [1] "s1" 1 (some 0) (some 0) none

/-! ## Claims -/

/-- C1 counterexample: on a freshly constructed dispatcher with no
language override ever applied, `self._language` is `"en"`, so the engine
is invoked with English — not automatic detection — and both the engine
invocation parameters and the delivered payload differ from the
empty-string-override run (which resolves to `None`, automatic
detection). -/
theorem C1_counterexample :
    processTask (some demoModel)
        ((WhisperProcessor.init.set_language (some "")).language)
        deliverAlwaysOk demoTask ≠
      processTask (some demoModel) WhisperProcessor.init.language
        deliverAlwaysOk demoTask ∧
    engineCalls (processTask (some demoModel) WhisperProcessor.init.language
        deliverAlwaysOk demoTask) =
      [mkEngineCall [1] (some "en") none] := by
  exact ⟨by decide, rfl⟩

/-- C1 amended: setting the language override to the empty string is
observably identical to setting it to `None` — both store `None`, so the
engine is invoked with automatic language detection — but a dispatcher on
which no override was ever applied keeps the constructor default `"en"`
and the engine is invoked with English, not automatic detection. -/
theorem C1_empty_override_equals_none_override (p : WhisperProcessor)
    (model : Option WhisperModel) (deliver : DeliveryOracle) (t : Task) :
    p.set_language (some "") = p.set_language none ∧
    (p.set_language (some "")).language = none ∧
    WhisperProcessor.init.language = some "en" ∧
    processTask model ((p.set_language (some "")).language) deliver t =
      processTask model ((p.set_language none).language) deliver t := by
  have h : p.set_language (some "") = p.set_language none := by
    simp [WhisperProcessor.set_language]
  exact ⟨h, by simp [WhisperProcessor.set_language], rfl, by rw [h]⟩

/-- C2 counterexample: the enqueued tuple does not capture the language
override — `_recognize_audio` reads `self._language` at processing time —
so mutating the dispatcher's language between enqueue and processing
changes the parameters applied during inference for the already-queued
request, while leaving the queued tuple itself unchanged. -/
theorem C2_counterexample :
    demoSubmitted.recognition_queue = [some demoTask] ∧
    (demoSubmitted.set_language (some "ja")).recognition_queue =
      [some demoTask] ∧
    processTask (some demoModel)
        ((demoSubmitted.set_language (some "ja")).language)
        deliverAlwaysOk demoTask ≠
      processTask (some demoModel) demoSubmitted.language
        deliverAlwaysOk demoTask := by
  exact ⟨rfl, rfl, by decide⟩

/-- C2 amended: the audio buffer, session identifier, speech identifier,
callback, event-loop handle and prompt are captured in the queued tuple
at submission and are unaffected by later dispatcher mutation; but the
language override is not part of the tuple — the engine sees the
dispatcher's language at processing time. -/
theorem C2_tuple_captured_at_submission (p : WhisperProcessor)
    (audio_data : Audio) (session_id : String) (speech_id : ℕ)
    (cb lp : Option ℕ) (prompt : Option String) (v : Option String) :
    ((p.recognize_async audio_data session_id speech_id cb lp
        prompt).set_language v).recognition_queue =
      p.recognition_queue ++
        [some { audio_data := audio_data, session_id := session_id
                speech_id := speech_id, callback := cb
                running_loop := lp, prompt := prompt }] ∧
    ∀ (wm : WhisperModel) (lang : Option String) (deliver : DeliveryOracle),
      engineCalls (processTask (some wm) lang deliver
          { audio_data := audio_data, session_id := session_id
            speech_id := speech_id, callback := cb
            running_loop := lp, prompt := prompt }) =
        [mkEngineCall audio_data lang prompt] := by
  constructor
  · simp [WhisperProcessor.recognize_async, WhisperProcessor.set_language]
  · intro wm lang deliver
    exact engineCalls_processTask wm lang deliver _

/-- C3: whenever the model backend raises during `transcribe`, the
exception is caught and converted to the failure payload carrying the
error message; `_recognize_audio` is total (it returns a payload for
every input), so no exception reaches the worker loop. -/
theorem C3_engine_raise_to_failure_payload (m : WhisperModel)
    (language : Option String) (audio_data : Audio) (prompt : Option String)
    (e : String)
    (h : m (mkEngineCall audio_data language prompt) = .error e) :
    recognize_audio (some m) language audio_data prompt = errorPayload e := by
  simp [recognize_audio, recognize_audio_traced, h]

/-- C3 witness: a backend raising `"boom"` yields the payload
`{"error": "boom"}`. -/
theorem C3_witness :
    failingModel (mkEngineCall [1] (some "en") none) = .error "boom" ∧
    recognize_audio (some failingModel) (some "en") [1] none =
      errorPayload "boom" :=
  ⟨rfl, C3_engine_raise_to_failure_payload failingModel (some "en") [1] none
    "boom" rfl⟩

/-- C4: over any finite sequence of poll results, with any model backend
and any delivery outcomes (empty polls, engine failures, delivery
failures included), the worker ends in `Stopped` precisely when the
sentinel `None` was dequeued; and `recognize_async` only ever appends a
non-sentinel item, so normal submission never produces the sentinel. -/
theorem C4_stop_only_on_sentinel (model : Option WhisperModel)
    (language : Option String) (deliver : DeliveryOracle)
    (polls : List PollResult) :
    ((workerRun model language deliver polls).2 = WorkerPhase.Stopped ↔
      PollResult.item none ∈ polls) ∧
    ∀ (p : WhisperProcessor) (audio_data : Audio) (session_id : String)
      (speech_id : ℕ) (cb lp : Option ℕ) (prompt : Option String),
      (p.recognize_async audio_data session_id speech_id cb lp
          prompt).recognition_queue =
        p.recognition_queue ++
          [some { audio_data := audio_data, session_id := session_id
                  speech_id := speech_id, callback := cb
                  running_loop := lp, prompt := prompt }] := by
  constructor
  · induction polls with
    | nil => simp [workerRun]
    | cons hd rest ih =>
      cases hd with
      | empty => simpa [workerRun] using ih
      | item i =>
        cases i with
        | none => simp [workerRun]
        | some t => simpa [workerRun] using ih
  · intro p audio_data session_id speech_id cb lp prompt
    simp [WhisperProcessor.recognize_async]

/-- C5: draining a queue holding `N` requests followed by the sentinel
invokes the engine exactly `N` times, in exactly submission order (with
the captured audio and prompt of each request), and the worker stops only
after all `N` requests are processed. -/
theorem C5_fifo_exact_invocations (wm : WhisperModel)
    (language : Option String) (deliver : DeliveryOracle)
    (tasks : List Task) :
    engineCalls (workerRun (some wm) language deliver
        (tasks.map (fun t => PollResult.item (some t)) ++
          [PollResult.item none])).1 =
      tasks.map (fun t => mkEngineCall t.audio_data language t.prompt) ∧
    (engineCalls (workerRun (some wm) language deliver
        (tasks.map (fun t => PollResult.item (some t)) ++
          [PollResult.item none])).1).length = tasks.length ∧
    (workerRun (some wm) language deliver
        (tasks.map (fun t => PollResult.item (some t)) ++
          [PollResult.item none])).2 = WorkerPhase.Stopped := by
  have key : ∀ ts : List Task,
      engineCalls (workerRun (some wm) language deliver
          (ts.map (fun t => PollResult.item (some t)) ++
            [PollResult.item none])).1 =
        ts.map (fun t => mkEngineCall t.audio_data language t.prompt) ∧
      (workerRun (some wm) language deliver
          (ts.map (fun t => PollResult.item (some t)) ++
            [PollResult.item none])).2 = WorkerPhase.Stopped := by
    intro ts
    induction ts with
    | nil => simp [workerRun, engineCalls]
    | cons t ts ih =>
      simp only [List.map_cons, List.cons_append, workerRun,
        engineCalls_append, engineCalls_processTask, List.append_eq]
      simp [ih.1, ih.2]
  refine ⟨(key tasks).1, ?_, (key tasks).2⟩
  rw [(key tasks).1]
  simp

/-- C6: every payload `_recognize_audio` delivers is exclusively a
failure payload (only an error key) or a success payload (text, language
and segments keys, no error key) — never both, for every model backend,
language, audio and prompt. -/
theorem C6_payload_exclusive (model : Option WhisperModel)
    (language : Option String) (audio_data : Audio)
    (prompt : Option String) :
    ((recognize_audio model language audio_data prompt).error.isSome ∧
     (recognize_audio model language audio_data prompt).text = none ∧
     (recognize_audio model language audio_data prompt).language = none ∧
     (recognize_audio model language audio_data prompt).segments = none) ∨
    ((recognize_audio model language audio_data prompt).error = none ∧
     (recognize_audio model language audio_data prompt).text.isSome ∧
     (recognize_audio model language audio_data prompt).language.isSome ∧
     (recognize_audio model language audio_data prompt).segments.isSome) := by
  cases model with
  | none =>
    left
    simp [recognize_audio, recognize_audio_traced, errorPayload]
  | some m =>
    cases hm : m (mkEngineCall audio_data language prompt) with
    | error e =>
      left
      simp [recognize_audio, recognize_audio_traced, hm, errorPayload]
    | ok r =>
      right
      simp [recognize_audio, recognize_audio_traced, hm, successPayload]

/-- C7: on a successful transcription the delivered top-level text is the
stripped raw text (no leading or trailing whitespace), the delivered
segment list is the raw segment list mapped in order, and every delivered
segment keeps its raw offsets and carries stripped text with no leading
or trailing whitespace. -/
theorem C7_text_stripped_segments_ordered (m : WhisperModel)
    (language : Option String) (audio_data : Audio) (prompt : Option String)
    (r : RawResult)
    (h : m (mkEngineCall audio_data language prompt) = .ok r) :
    (recognize_audio (some m) language audio_data prompt).text =
      some (pyStrip r.text) ∧
    noEdgeSpace (pyStrip r.text) = true ∧
    (recognize_audio (some m) language audio_data prompt).segments =
      some (r.segments.map stripSegment) ∧
    List.Forall₂ (fun (s : Segment) (raw : RawSegment) =>
        s.seg_start = raw.seg_start ∧ s.seg_end = raw.seg_end ∧
        s.text = pyStrip raw.text ∧ noEdgeSpace s.text = true)
      (r.segments.map stripSegment) r.segments := by
  refine ⟨?_, noEdgeSpace_pyStrip r.text, ?_, ?_⟩
  · simp [recognize_audio, recognize_audio_traced, h, successPayload]
  · simp [recognize_audio, recognize_audio_traced, h, successPayload]
  · induction r.segments with
    | nil => simp
    | cons seg segs ih =>
      refine List.Forall₂.cons ?_ ih
      exact ⟨rfl, rfl, rfl, noEdgeSpace_pyStrip seg.text⟩

/-- C7 witness: `demoModel` returns raw text `" hi "` and one raw segment
with text `" a b "`; the delivered texts are stripped and the single
segment keeps its offsets. -/
theorem C7_witness :
    demoModel (mkEngineCall [1] (some "en") none) = .ok demoRawEn ∧
    ((recognize_audio (some demoModel) (some "en") [1] none).text =
        some (pyStrip demoRawEn.text) ∧
      noEdgeSpace (pyStrip demoRawEn.text) = true ∧
      (recognize_audio (some demoModel) (some "en") [1] none).segments =
        some (demoRawEn.segments.map stripSegment) ∧
      List.Forall₂ (fun (s : Segment) (raw : RawSegment) =>
          s.seg_start = raw.seg_start ∧ s.seg_end = raw.seg_end ∧
          s.text = pyStrip raw.text ∧ noEdgeSpace s.text = true)
        (demoRawEn.segments.map stripSegment) demoRawEn.segments) :=
  ⟨rfl, C7_text_stripped_segments_ordered demoModel (some "en") [1] none
    demoRawEn rfl⟩

/-- C8: the wait on the scheduled callback is bounded by the fixed
five-second timeout; when that wait fails (timeout or exception) the
worker logs `"Failed to send recognition result: ..."` and moves on to
the remaining queue items, whose processing is unchanged; the iteration
schedules the payload exactly once for the request's correlation pair —
it is never retried or requeued. -/
theorem C8_delivery_failure_logged_and_lost (model : Option WhisperModel)
    (language : Option String) (deliver : DeliveryOracle) (t : Task)
    (cb lp : ℕ) (rest : List PollResult) (msg : String)
    (hcb : t.callback = some cb) (hlp : t.running_loop = some lp)
    (hfail : deliver t (recognize_audio model language t.audio_data t.prompt)
        FUTURE_RESULT_TIMEOUT = .failed msg) :
    FUTURE_RESULT_TIMEOUT = 5 ∧
    workerRun model language deliver (PollResult.item (some t) :: rest) =
      ((recognize_audio_traced model language t.audio_data t.prompt).2.map
          Event.engineCall ++
        [Event.scheduled cb lp
            (recognize_audio model language t.audio_data t.prompt)
            t.session_id t.speech_id,
          Event.logError ("Failed to send recognition result: " ++ msg)] ++
        (workerRun model language deliver rest).1,
       (workerRun model language deliver rest).2) ∧
    scheduledFor (processTask model language deliver t) t.session_id
        t.speech_id =
      [recognize_audio model language t.audio_data t.prompt] := by
  have hfail' : deliver t
      (recognize_audio_traced model language t.audio_data t.prompt).1
      FUTURE_RESULT_TIMEOUT = .failed msg := hfail
  refine ⟨rfl, ?_, ?_⟩
  · simp [workerRun, processTask, hcb, hlp, hfail', recognize_audio]
  · simp [scheduledFor, processTask, hcb, hlp, hfail', recognize_audio,
      List.filterMap_map]

/-- C8 witness: with a delivery oracle that always times out, the single
queued request is transcribed, its callback scheduling is waited on with
the five-second bound, the failure is logged and the worker ends the
window still running with an empty continuation. -/
theorem C8_witness :
    demoTask.callback = some 0 ∧
    demoTask.running_loop = some 0 ∧
    deliverAlwaysTimeout demoTask
        (recognize_audio (some demoModel) (some "en") demoTask.audio_data
          demoTask.prompt) FUTURE_RESULT_TIMEOUT = .failed "timed out" ∧
    (FUTURE_RESULT_TIMEOUT = 5 ∧
      workerRun (some demoModel) (some "en") deliverAlwaysTimeout
          (PollResult.item (some demoTask) :: []) =
        ((recognize_audio_traced (some demoModel) (some "en")
              demoTask.audio_data demoTask.prompt).2.map Event.engineCall ++
          [Event.scheduled 0 0
              (recognize_audio (some demoModel) (some "en")
                demoTask.audio_data demoTask.prompt)
              demoTask.session_id demoTask.speech_id,
            Event.logError
              ("Failed to send recognition result: " ++ "timed out")] ++
          (workerRun (some demoModel) (some "en") deliverAlwaysTimeout []).1,
         (workerRun (some demoModel) (some "en") deliverAlwaysTimeout []).2) ∧
      scheduledFor
          (processTask (some demoModel) (some "en") deliverAlwaysTimeout
            demoTask) demoTask.session_id demoTask.speech_id =
        [recognize_audio (some demoModel) (some "en") demoTask.audio_data
          demoTask.prompt]) :=
  ⟨rfl, rfl, rfl,
    C8_delivery_failure_logged_and_lost (some demoModel) (some "en")
      deliverAlwaysTimeout demoTask 0 0 [] "timed out" rfl rfl rfl⟩

/-- C9: when the model failed to load (`is_model_loaded` is false, i.e.
the class attribute is `None`), the guarded factory `create` returns
`None`: no `WhisperProcessor` instance exists, and since the worker
thread is started only inside `__init__`, no worker thread is spawned. -/
theorem C9_unavailable_yields_no_instance (model : Option WhisperModel)
    (h : WhisperProcessor.is_model_loaded model = false) :
    WhisperProcessor.create model = none := by
  cases model with
  | none => rfl
  | some m => simp [WhisperProcessor.is_model_loaded] at h

/-- C9 witness: with no model loaded, `is_model_loaded` is false and
`create` yields nothing. -/
theorem C9_witness :
    WhisperProcessor.is_model_loaded none = false ∧
    WhisperProcessor.create none = none :=
  ⟨rfl, C9_unavailable_yields_no_instance none rfl⟩

/-- C10: a request whose callback or event-loop handle is falsy is still
transcribed (with the model available, the engine is invoked once with
the captured audio and prompt), but the iteration trace consists of the
engine invocation only — no callback scheduling, no error log — and the
worker continues with the remaining items. -/
theorem C10_falsy_callback_silent_discard (model : Option WhisperModel)
    (language : Option String) (deliver : DeliveryOracle) (t : Task)
    (rest : List PollResult)
    (h : t.callback = none ∨ t.running_loop = none) :
    processTask model language deliver t =
      (recognize_audio_traced model language t.audio_data t.prompt).2.map
        Event.engineCall ∧
    (∀ wm : WhisperModel, model = some wm →
      processTask model language deliver t =
        [Event.engineCall (mkEngineCall t.audio_data language t.prompt)]) ∧
    workerRun model language deliver (PollResult.item (some t) :: rest) =
      (processTask model language deliver t ++
        (workerRun model language deliver rest).1,
       (workerRun model language deliver rest).2) := by
  have h1 : processTask model language deliver t =
      (recognize_audio_traced model language t.audio_data t.prompt).2.map
        Event.engineCall := by
    rcases h with hcb | hlp
    · simp [processTask, hcb]
    · cases hc : t.callback <;> simp [processTask, hc, hlp]
  refine ⟨h1, ?_, rfl⟩
  intro wm hwm
  subst hwm
  rw [h1]
  cases hm : wm (mkEngineCall t.audio_data language t.prompt) <;>
    simp [recognize_audio_traced, hm]

/-- C10 witness: a request with no callback is transcribed (one engine
invocation) and silently discarded. -/
theorem C10_witness :
    (demoTaskNoCb.callback = none ∨ demoTaskNoCb.running_loop = none) ∧
    (processTask (some demoModel) (some "en") deliverAlwaysOk demoTaskNoCb =
        (recognize_audio_traced (some demoModel) (some "en")
            demoTaskNoCb.audio_data demoTaskNoCb.prompt).2.map
          Event.engineCall ∧
      (∀ wm : WhisperModel, some demoModel = some wm →
        processTask (some demoModel) (some "en") deliverAlwaysOk
            demoTaskNoCb =
          [Event.engineCall
              (mkEngineCall demoTaskNoCb.audio_data (some "en")
                demoTaskNoCb.prompt)]) ∧
      workerRun (some demoModel) (some "en") deliverAlwaysOk
          (PollResult.item (some demoTaskNoCb) :: []) =
        (processTask (some demoModel) (some "en") deliverAlwaysOk
            demoTaskNoCb ++
          (workerRun (some demoModel) (some "en") deliverAlwaysOk []).1,
         (workerRun (some demoModel) (some "en") deliverAlwaysOk []).2)) :=
  ⟨Or.inl rfl,
    C10_falsy_callback_silent_discard (some demoModel) (some "en")
      deliverAlwaysOk demoTaskNoCb [] (Or.inl rfl)⟩

end WhisperSDK
